import Mathlib

/-!
Verification of the term-solver service
(`src/app/projects/py/term_solver/term_solver.py`).

The Python evaluator `solve_term` is a recursive function on strings that can
raise (`IndexError` on indexing past the end, `ValueError` from `int(...)` on a
non-digit character) and whose recursion is not structurally decreasing, so it
is embedded with explicit fuel: `solve_term fuel term` returns `none` when the
fuel runs out and `some r` otherwise, where `r : Except PyErr (List Char)` is
either the returned string (Python strings are modelled as `List Char`) or the
raised error.  `solveTermReturns t r` (there is enough fuel for `t` to produce
`r`) is the fuel-independent behaviour of the Python function, backed by the
monotonicity and determinism lemmas below.
-/

/-- Errors the Python code can raise while evaluating a term:
`IndexError` from `term[i]` with `i ≥ len(term)`, and `ValueError` from
`int(c)` when the one-character string `c` is not a decimal digit. -/
inductive PyErr where
  | indexError : PyErr
  | valueError : Char → PyErr
deriving DecidableEq

instance (ε α : Type) [DecidableEq ε] [DecidableEq α] : DecidableEq (Except ε α) := fun a b =>
  match a, b with
  | .ok x, .ok y =>
    if h : x = y then .isTrue (by rw [h]) else .isFalse (by simp [h])
  | .error e, .error f =>
    if h : e = f then .isTrue (by rw [h]) else .isFalse (by simp [h])
  | .ok _, .error _ => .isFalse (by simp)
  | .error _, .ok _ => .isFalse (by simp)

/-- ASCII decimal-digit test: the characters `'0'` (code 48) to `'9'`
(code 57). -/
def isDigitChar (c : Char) : Bool := 48 ≤ c.toNat && c.toNat ≤ 57

/-- Numeric value of an ASCII decimal digit character. -/
def charVal (c : Char) : Nat := c.toNat - '0'.toNat

/-- Starting codepoints of the runs of Unicode decimal-digit characters
(category Nd) that CPython's `int()` accepts.  Every run is exactly 10
consecutive codepoints whose digit values are 0 to 9 in order, so a
one-character string parses as the offset of its codepoint in the run that
contains it.  The table was obtained by calling `int` on every single-char
string in CPython 3.11 and grouping the accepted codepoints into runs; ASCII
`'0'`-`'9'` is the first run (start 48). -/
def digitRanges : List Nat :=
  [48, 1632, 1776, 1984, 2406, 2534, 2662, 2790, 2918, 3046, 3174, 3302,
   3430, 3558, 3664, 3792, 3872, 4160, 4240, 6112, 6160, 6470, 6608, 6784,
   6800, 6992, 7088, 7232, 7248, 42528, 43216, 43264, 43472, 43504, 43600,
   44016, 65296, 66720, 68912, 69734, 69872, 69942, 70096, 70384, 70736,
   70864, 71248, 71360, 71472, 71904, 72016, 72784, 73040, 73120, 92768,
   92864, 93008, 120782, 120792, 120802, 120812, 120822, 123200, 123632,
   125264, 130032]

/-- Test for the characters Python's `int()` accepts as a one-character
string: the Unicode decimal digits. -/
def isPyDigit (c : Char) : Bool :=
  digitRanges.any (fun s => s ≤ c.toNat && c.toNat ≤ s + 9)

/-- Python `int(c)` for a one-character string `c`: the digit value of any
Unicode decimal digit (its offset in the digit run containing it), or a
`ValueError` carrying the offending character. -/
def pyInt (c : Char) : Except PyErr Nat :=
  match digitRanges.find? (fun s => s ≤ c.toNat && c.toNat ≤ s + 9) with
  | some s => .ok (c.toNat - s)
  | none => .error (.valueError c)

/-- Python `str(n)` for a nonnegative integer `n`, as a list of characters. -/
def pyStr (n : Nat) : List Char := Nat.toDigits 10 n

/-- The non-recursive head of one call of `solve_term`: either it raises, or
returns a length-3 result, or it asks for one of the two recursive
continuations (`plusCase` / `mulCase` below). -/
inductive Head where
  | err : PyErr → Head
  | done : List Char → Head
  | plusCase : Nat → List Char → Head
  | mulCase : List Char → Head
deriving DecidableEq

/-- The straight-line part of `solve_term` (term_solver.py lines 25-39):
`number = int(term[0]); operator = term[1]; number2 = int(term[2])`, evaluated
in Python's left-to-right order (so the error raised matches Python's), then
the branch selection:
* `len(term) == 3` and `operator == "+"`: return `str(number + number2)`;
* `len(term) == 3` otherwise: return `str(number * number2)`;
* `operator != "*"`: recurse on `term[2:]`, then on
  `str(number) + "+" + str(r)` (`plusCase number term[2:]`);
* else: recurse on `str(number * number2) + term[3:]` (`mulCase`). -/
def headStep (term : List Char) : Head :=
  match term.get? 0 with
  | none => .err .indexError
  | some c0 =>
    match pyInt c0 with
    | .error e => .err e
    | .ok number =>
      match term.get? 1 with
      | none => .err .indexError
      | some operator =>
        match term.get? 2 with
        | none => .err .indexError
        | some c2 =>
          match pyInt c2 with
          | .error e => .err e
          | .ok number2 =>
            if term.length = 3 then
              if operator = '+' then .done (pyStr (number + number2))
              else .done (pyStr (number * number2))
            else if operator ≠ '*' then .plusCase number (term.drop 2)
            else .mulCase (pyStr (number * number2) ++ term.drop 3)

/-- Fuel-indexed embedding of `solve_term` (term_solver.py lines 24-39).
`none` means the fuel ran out before the Python recursion finished; `some`
wraps the value returned or the error raised.  In the `plusCase` branch the
Python code computes `solve_term(term[2:])` first and, if that returns `r`,
calls `solve_term(str(number) + "+" + str(r))` (here `str` of a string is the
string itself); in the `mulCase` branch it calls `solve_term` on the spliced
string directly. -/
def solve_term : Nat → List Char → Option (Except PyErr (List Char))
  | 0, _ => none
  | fuel+1, term =>
    match headStep term with
    | .err e => some (.error e)
    | .done v => some (.ok v)
    | .plusCase number rest2 =>
      match solve_term fuel rest2 with
      | none => none
      | some (.error e) => some (.error e)
      | some (.ok r) => solve_term fuel (pyStr number ++ '+' :: r)
    | .mulCase spliced => solve_term fuel spliced

/-- The Python call `solve_term(t)` terminates with outcome `r` (a returned
string or a raised error) once given enough fuel. -/
def solveTermReturns (t : List Char) (r : Except PyErr (List Char)) : Prop :=
  ∃ fuel, solve_term fuel t = some r

/-- Well-formed term in the sense of the data-model invariant: odd length,
a decimal digit at every even index, `'+'` or `'*'` at every odd index. -/
def wellFormed : List Char → Bool
  | [] => false
  | [c] => isDigitChar c
  | c :: op :: rest => isDigitChar c && (op = '+' || op = '*') && wellFormed rest

/-- The pure multiplication chain `d1*d2*...*dk` over the digit characters
`c :: cs` (so `k = cs.length + 1`). -/
def mulChain : Char → List Char → List Char
  | c, [] => [c]
  | c, c2 :: cs => c :: '*' :: mulChain c2 cs

/-- Product of all digits of the chain `c :: cs`, folded left to right. -/
def chainProd (c : Char) (cs : List Char) : Nat :=
  cs.foldl (fun acc x => acc * charVal x) (charVal c)

/-- Every strict-prefix product of the chain stays below 10: starting from the
running product `acc` of the digits already consumed, each time another digit
follows, the running product so far must be below 10. -/
def prodsOk : Nat → List Char → Bool
  | _, [] => true
  | acc, c :: cs => decide (acc < 10) && prodsOk (acc * charVal c) cs

/-- State of the `term` field of the request's JSON body: the key can be
absent from the JSON object, present with value `null` (Python `None`), or
present with a string value. -/
inductive TermField where
  | absent : TermField
  | null : TermField
  | str : String → TermField
deriving DecidableEq

/-- Error the view function itself can raise before reaching the `try`
block: the `KeyError` (carrying the key) that `request.json['term']` raises
on line 14 when the JSON body has no `'term'` key. -/
inductive ViewErr where
  | keyError : String → ViewErr
deriving DecidableEq

/-- HTTP response produced by the view: a body and a status code.  The body
of a 500 response is `str(e)` for the error `e` the evaluator raised; the
`errText` constructor keeps that body symbolic — the text representation of
`e`, whatever characters CPython's message has — instead of committing to a
concrete message string. -/
inductive Resp where
  | body : String → Nat → Resp
  | errText : PyErr → Nat → Resp
deriving DecidableEq

/-- The `/solve` view function `solveAPI` (term_solver.py lines 12-21) as a
function of the state of the JSON field `request.json['term']`.  When the key
is absent, line 14 raises `KeyError('term')` before the `if not term:` guard
and before the `try` block, so the view produces no response of its own (the
framework's default handling of the uncaught exception takes over); this is
the `.error` outcome.  `None` and the empty string are exactly the falsy
values the guard maps to the 400 response.  Otherwise `str(term)` (identity
on a string) is passed to `solve_term`; the `try/except` turns a returned
string `result` into a 200 response with body `str(result)` (again identity)
and a raised error `e` into a 500 response with body `str(e)`.  The
evaluator's fuel is threaded through: `none` means the evaluation did not
finish within the given fuel. -/
def solveAPI (fuel : Nat) (tf : TermField) : Option (Except ViewErr Resp) :=
  match tf with
  | .absent => some (.error (.keyError "term"))
  | .null => some (.ok (.body "No term provided" 400))
  | .str t =>
    if t = "" then some (.ok (.body "No term provided" 400))
    else
      match solve_term fuel t.data with
      | none => none
      | some (.ok r) => some (.ok (.body (String.mk r) 200))
      | some (.error e) => some (.ok (.errText e 500))

/-- One-step unfolding of `solve_term` when the head raises. -/
theorem solve_term_succ_err {t : List Char} {e : PyErr} (h : headStep t = .err e)
    (n : Nat) : solve_term (n + 1) t = some (.error e) := by
  simp [solve_term, h]

/-- One-step unfolding of `solve_term` when the head finishes. -/
theorem solve_term_succ_done {t v : List Char} (h : headStep t = .done v)
    (n : Nat) : solve_term (n + 1) t = some (.ok v) := by
  simp [solve_term, h]

/-- One-step unfolding of `solve_term` in the addition branch. -/
theorem solve_term_succ_plus {t rest2 : List Char} {number : Nat}
    (h : headStep t = .plusCase number rest2) (n : Nat) :
    solve_term (n + 1) t =
      match solve_term n rest2 with
      | none => none
      | some (.error e) => some (.error e)
      | some (.ok r) => solve_term n (pyStr number ++ '+' :: r) := by
  simp only [solve_term, h]

/-- One-step unfolding of `solve_term` in the multiplication branch. -/
theorem solve_term_succ_mul {t spliced : List Char}
    (h : headStep t = .mulCase spliced) (n : Nat) :
    solve_term (n + 1) t = solve_term n spliced := by
  simp only [solve_term, h]

/-- Adding fuel never changes an outcome that was already reached. -/
theorem solve_term_mono : ∀ n m t r, n ≤ m →
    solve_term n t = some r → solve_term m t = some r := by
  intro n
  induction n with
  | zero => intro m t r _ h; simp [solve_term] at h
  | succ n ih =>
    intro m t r hle h
    obtain ⟨m', rfl⟩ : ∃ m', m = m' + 1 := ⟨m - 1, by omega⟩
    have hnm : n ≤ m' := by omega
    cases hh : headStep t with
    | err e =>
      rw [solve_term_succ_err hh] at h ⊢
      exact h
    | done v =>
      rw [solve_term_succ_done hh] at h ⊢
      exact h
    | plusCase number rest2 =>
      rw [solve_term_succ_plus hh] at h ⊢
      cases h2 : solve_term n rest2 with
      | none => rw [h2] at h; exact absurd h (by simp)
      | some res =>
        rw [h2] at h
        rw [ih m' rest2 res hnm h2]
        cases res with
        | error e => exact h
        | ok r2 => exact ih m' _ r hnm h
    | mulCase spliced =>
      rw [solve_term_succ_mul hh] at h ⊢
      exact ih m' spliced r hnm h

/-- The embedded evaluator is deterministic: a term has at most one outcome. -/
theorem solveTermReturns_det {t : List Char} {r1 r2 : Except PyErr (List Char)}
    (h1 : solveTermReturns t r1) (h2 : solveTermReturns t r2) : r1 = r2 := by
  obtain ⟨n, hn⟩ := h1
  obtain ⟨m, hm⟩ := h2
  have e1 := solve_term_mono n (max n m) t r1 (Nat.le_max_left n m) hn
  have e2 := solve_term_mono m (max n m) t r2 (Nat.le_max_right n m) hm
  rw [e1] at e2
  exact Option.some.inj e2

/-- A call whose head raises `e` raises `e`. -/
theorem returns_of_err {t : List Char} {e : PyErr} (h : headStep t = .err e) :
    solveTermReturns t (.error e) :=
  ⟨1, solve_term_succ_err h 0⟩

/-- A call whose head finishes with value `v` returns `v`. -/
theorem returns_of_done {t : List Char} {v : List Char} (h : headStep t = .done v) :
    solveTermReturns t (.ok v) :=
  ⟨1, solve_term_succ_done h 0⟩

/-- A call in the multiplication branch has exactly the outcomes of the call on
the spliced string. -/
theorem returns_mul_step {t spliced : List Char} (h : headStep t = .mulCase spliced)
    (r : Except PyErr (List Char)) :
    solveTermReturns t r ↔ solveTermReturns spliced r := by
  constructor
  · rintro ⟨n, hn⟩
    match n with
    | 0 => exact absurd hn (by simp [solve_term])
    | n+1 =>
      rw [solve_term_succ_mul h] at hn
      exact ⟨n, hn⟩
  · rintro ⟨n, hn⟩
    exact ⟨n + 1, by rw [solve_term_succ_mul h]; exact hn⟩

/-- A call in the addition branch whose inner call on `term[2:]` returns the
string `r` has exactly the outcomes of the call on the reconstructed string
`str(number) + "+" + r`. -/
theorem returns_plus_step {t rest2 : List Char} {number : Nat} {r : List Char}
    (h : headStep t = .plusCase number rest2)
    (hr : solveTermReturns rest2 (.ok r)) (res : Except PyErr (List Char)) :
    solveTermReturns t res ↔ solveTermReturns (pyStr number ++ '+' :: r) res := by
  constructor
  · rintro ⟨n, hn⟩
    match n with
    | 0 => exact absurd hn (by simp [solve_term])
    | n+1 =>
      rw [solve_term_succ_plus h] at hn
      cases h2 : solve_term n rest2 with
      | none => rw [h2] at hn; exact absurd hn (by simp)
      | some res2 =>
        rw [h2] at hn
        have : res2 = .ok r := solveTermReturns_det ⟨n, h2⟩ hr
        subst this
        exact ⟨n, hn⟩
  · rintro ⟨n, hn⟩
    obtain ⟨k, hk⟩ := hr
    refine ⟨max n k + 1, ?_⟩
    rw [solve_term_succ_plus h]
    rw [solve_term_mono k (max n k) rest2 _ (Nat.le_max_right n k) hk]
    exact solve_term_mono n (max n k) _ res (Nat.le_max_left n k) hn

/-- The value of a digit character is below 10. -/
theorem charVal_lt10 {c : Char} (h : isDigitChar c = true) : charVal c < 10 := by
  simp [isDigitChar] at h
  simp [charVal]
  omega

/-- On ASCII digits, `pyInt` succeeds with the digit's value: the ASCII run
(start 48) is the only entry of `digitRanges` whose run can contain a
codepoint of 48 to 57, every other entry starting at 1632 or beyond. -/
theorem pyInt_ascii {c : Char} (h : isDigitChar c = true) :
    pyInt c = .ok (charVal c) := by
  simp [isDigitChar] at h
  unfold pyInt
  cases hf : digitRanges.find? (fun s => decide (s ≤ c.toNat) && decide (c.toNat ≤ s + 9)) with
  | none =>
    rw [List.find?_eq_none] at hf
    have h48 := hf 48 (by decide)
    simp at h48
    omega
  | some s =>
    have hp := List.find?_some hf
    have hm := List.mem_of_find?_eq_some hf
    simp at hp
    have hall : ∀ x ∈ digitRanges, x = 48 ∨ 1632 ≤ x := by decide
    have hs48 : s = 48 := by
      rcases hall s hm with rfl | hge
      · rfl
      · omega
    subst hs48
    simp [charVal]

/-- A character accepted by Python's `int()` makes `pyInt` succeed. -/
theorem pyInt_ok_of_digit {c : Char} (h : isPyDigit c = true) :
    ∃ v, pyInt c = .ok v := by
  unfold isPyDigit at h
  unfold pyInt
  cases hf : digitRanges.find? (fun s => decide (s ≤ c.toNat) && decide (c.toNat ≤ s + 9)) with
  | some s => exact ⟨c.toNat - s, rfl⟩
  | none =>
    rw [List.find?_eq_none] at hf
    rw [List.any_eq_true] at h
    obtain ⟨s, hs, hp⟩ := h
    exact absurd hp (by simpa using hf s hs)

/-- A character rejected by Python's `int()` makes `pyInt` raise a
`ValueError` on it. -/
theorem pyInt_err_of_not_digit {c : Char} (h : isPyDigit c = false) :
    pyInt c = .error (.valueError c) := by
  unfold pyInt
  cases hf : digitRanges.find? (fun s => decide (s ≤ c.toNat) && decide (c.toNat ≤ s + 9)) with
  | none => rfl
  | some s =>
    have hp := List.find?_some hf
    have hm := List.mem_of_find?_eq_some hf
    have htrue : isPyDigit c = true := by
      unfold isPyDigit
      rw [List.any_eq_true]
      exact ⟨s, hm, hp⟩
    rw [h] at htrue
    exact absurd htrue (by simp)

/-- Python prints a number below 10 as the single corresponding digit. -/
theorem pyStr_lt10 : ∀ n < 10, pyStr n = [Nat.digitChar n] := by decide

/-- The digit character of a number below 10 is a decimal digit. -/
theorem digitChar_isDigit : ∀ n < 10, isDigitChar (Nat.digitChar n) = true := by decide

/-- Printing and re-reading a digit below 10 round-trips. -/
theorem charVal_digitChar : ∀ n < 10, charVal (Nat.digitChar n) = n := by decide

/-- Head of a length-3 term with `'+'` in the middle. -/
theorem headStep_three_plus {c0 c2 : Char} (hc0 : isDigitChar c0 = true)
    (hc2 : isDigitChar c2 = true) :
    headStep [c0, '+', c2] = .done (pyStr (charVal c0 + charVal c2)) := by
  simp [headStep, pyInt_ascii hc0, pyInt_ascii hc2]

/-- Head of a length-3 term with anything other than `'+'` in the middle. -/
theorem headStep_three_mul {c0 op c2 : Char} (hc0 : isDigitChar c0 = true)
    (hc2 : isDigitChar c2 = true) (hop : op ≠ '+') :
    headStep [c0, op, c2] = .done (pyStr (charVal c0 * charVal c2)) := by
  simp [headStep, pyInt_ascii hc0, pyInt_ascii hc2, hop]

/-- Head of a term longer than 3 whose operator at index 1 is not `'*'`. -/
theorem headStep_long_plus {c0 op c2 : Char} {rest : List Char}
    (hc0 : isDigitChar c0 = true) (hc2 : isDigitChar c2 = true)
    (hop : op ≠ '*') (hrest : rest ≠ []) :
    headStep (c0 :: op :: c2 :: rest) = .plusCase (charVal c0) (c2 :: rest) := by
  simp [headStep, pyInt_ascii hc0, pyInt_ascii hc2, hop, hrest]

/-- Head of a term longer than 3 whose operator at index 1 is `'*'`. -/
theorem headStep_long_mul {c0 c2 : Char} {rest : List Char}
    (hc0 : isDigitChar c0 = true) (hc2 : isDigitChar c2 = true)
    (hrest : rest ≠ []) :
    headStep (c0 :: '*' :: c2 :: rest) =
      .mulCase (pyStr (charVal c0 * charVal c2) ++ rest) := by
  simp [headStep, pyInt_ascii hc0, pyInt_ascii hc2, hrest]

/-- Every value the head can finish with is Python's printing of a number. -/
theorem headStep_done_shape {t v : List Char} (h : headStep t = .done v) :
    ∃ m : Nat, v = pyStr m := by
  unfold headStep at h
  repeat' split at h
  all_goals first
    | exact ⟨_, (Head.done.inj h).symm⟩
    | exact absurd h (by simp)

/-- Characters accumulated by `Nat.toDigitsCore` in base 10 are all digits. -/
theorem toDigitsCore_digits :
    ∀ fuel n ds, (∀ c ∈ ds, isDigitChar c = true) →
      ∀ c ∈ Nat.toDigitsCore 10 fuel n ds, isDigitChar c = true := by
  intro fuel
  induction fuel with
  | zero => intro n ds hds; simpa [Nat.toDigitsCore] using hds
  | succ f ih =>
    intro n ds hds c hc
    have hd : isDigitChar (Nat.digitChar (n % 10)) = true :=
      digitChar_isDigit (n % 10) (Nat.mod_lt n (by norm_num))
    simp only [Nat.toDigitsCore] at hc
    split at hc
    · rcases List.mem_cons.mp hc with rfl | hmem
      · exact hd
      · exact hds c hmem
    · refine ih (n / 10) (Nat.digitChar (n % 10) :: ds) ?_ c hc
      intro x hx
      rcases List.mem_cons.mp hx with rfl | hmem
      · exact hd
      · exact hds x hmem

/-- Python's decimal printing produces only digit characters. -/
theorem pyStr_digits (n : Nat) : ∀ c ∈ pyStr n, isDigitChar c = true := by
  intro c hc
  exact toDigitsCore_digits (n + 1) n [] (by simp) c hc

/-- Any value `solve_term` returns (with any fuel) is Python's printing of a
number: returns bubble up unchanged from the two length-3 base cases. -/
theorem solve_term_ok_shape :
    ∀ n t v, solve_term n t = some (.ok v) → ∃ m : Nat, v = pyStr m := by
  intro n
  induction n with
  | zero => intro t v h; simp [solve_term] at h
  | succ n ih =>
    intro t v h
    cases hh : headStep t with
    | err e =>
      rw [solve_term_succ_err hh] at h
      exact absurd h (by simp)
    | done w =>
      rw [solve_term_succ_done hh] at h
      obtain rfl : w = v := by simpa using h
      exact headStep_done_shape hh
    | plusCase number rest2 =>
      rw [solve_term_succ_plus hh] at h
      cases h2 : solve_term n rest2 with
      | none => rw [h2] at h; exact absurd h (by simp)
      | some res =>
        rw [h2] at h
        cases res with
        | error e => exact absurd h (by simp)
        | ok r => exact ih _ v h
    | mulCase spliced =>
      rw [solve_term_succ_mul hh] at h
      exact ih spliced v h


/-- C1: for every term of length greater than 3 whose characters at indices 0
and 2 are decimal digits and whose character at index 1 is `'*'`, `solve_term`
on the term has exactly the outcomes of `solve_term` on the string obtained by
concatenating the decimal representation of the product of the two digits
(computed directly, not by a recursive call) with `term[3:]`. -/
theorem C1_mul_branch_splice (c0 c2 : Char) (rest : List Char)
    (r : Except PyErr (List Char)) (hrest : rest ≠ [])
    (hc0 : isDigitChar c0 = true) (hc2 : isDigitChar c2 = true) :
    solveTermReturns (c0 :: '*' :: c2 :: rest) r ↔
      solveTermReturns (pyStr (charVal c0 * charVal c2) ++ rest) r :=
  returns_mul_step (headStep_long_mul hc0 hc2 hrest) r

/-- Witness for C1 at the term `"2*3*4"` and outcome `"24"`. -/
theorem C1_mul_branch_splice_witness :
    (('*' :: ['4'] : List Char) ≠ []) ∧
    (solveTermReturns ('2' :: '*' :: '3' :: '*' :: ['4']) (.ok ['2', '4']) ↔
      solveTermReturns (pyStr (charVal '2' * charVal '3') ++ '*' :: ['4'])
        (.ok ['2', '4'])) :=
  ⟨by decide, C1_mul_branch_splice '2' '3' ('*' :: ['4']) (.ok ['2', '4'])
    (by decide) (by decide) (by decide)⟩

/-- C2: for every term of length greater than 3 whose characters at indices 0
and 2 are decimal digits and whose character at index 1 is not `'*'`, whenever
the recursive call on `term[2:]` returns the string `r`, `solve_term` on the
term has exactly the outcomes of `solve_term` on the reconstructed string
`str(a) + "+" + r`. -/
theorem C2_plus_branch_reconstruct (c0 op c2 : Char) (rest r : List Char)
    (res : Except PyErr (List Char)) (hrest : rest ≠ [])
    (hc0 : isDigitChar c0 = true) (hop : op ≠ '*') (hc2 : isDigitChar c2 = true)
    (hr : solveTermReturns (c2 :: rest) (.ok r)) :
    solveTermReturns (c0 :: op :: c2 :: rest) res ↔
      solveTermReturns (pyStr (charVal c0) ++ '+' :: r) res :=
  returns_plus_step (headStep_long_plus hc0 hc2 hop hrest) hr res

/-- Witness for C2 at the term `"2+3*4"`, whose remainder `"3*4"` returns
`"12"`, and outcome `IndexError` (shared with the reconstruction `"2+12"`). -/
theorem C2_plus_branch_reconstruct_witness :
    (('*' :: ['4'] : List Char) ≠ []) ∧
    (solveTermReturns ('3' :: '*' :: ['4']) (.ok ['1', '2'])) ∧
    (solveTermReturns ('2' :: '+' :: '3' :: '*' :: ['4']) (.error .indexError) ↔
      solveTermReturns (pyStr (charVal '2') ++ '+' :: ['1', '2'])
        (.error .indexError)) :=
  ⟨by decide, ⟨9, by decide⟩,
    C2_plus_branch_reconstruct '2' '+' '3' ('*' :: ['4']) ['1', '2']
      (.error .indexError) (by decide) (by decide) (by decide) (by decide)
      ⟨9, by decide⟩⟩

/-- C4: a 3-character term with decimal digits around `'+'` returns the
decimal string of the sum of the two digits; in particular `"3+4"` returns
`"7"`. -/
theorem C4_three_plus (c0 c2 : Char) (hc0 : isDigitChar c0 = true)
    (hc2 : isDigitChar c2 = true) :
    solveTermReturns [c0, '+', c2] (.ok (pyStr (charVal c0 + charVal c2))) :=
  returns_of_done (headStep_three_plus hc0 hc2)

/-- Witness for C4 at `"3+4"`, whose result string is `"7"`. -/
theorem C4_three_plus_witness :
    solveTermReturns ['3', '+', '4'] (.ok (pyStr (charVal '3' + charVal '4'))) ∧
    pyStr (charVal '3' + charVal '4') = ['7'] :=
  ⟨C4_three_plus '3' '4' (by decide) (by decide), by decide⟩

/-- C5: a 3-character term with decimal digits around any character other than
`'+'` returns the decimal string of the product of the two digits; in
particular `"2*3"` returns `"6"`. -/
theorem C5_three_mul (c0 op c2 : Char) (hc0 : isDigitChar c0 = true)
    (hc2 : isDigitChar c2 = true) (hop : op ≠ '+') :
    solveTermReturns [c0, op, c2] (.ok (pyStr (charVal c0 * charVal c2))) :=
  returns_of_done (headStep_three_mul hc0 hc2 hop)

/-- Witness for C5 at `"2*3"`, whose result string is `"6"`. -/
theorem C5_three_mul_witness :
    solveTermReturns ['2', '*', '3'] (.ok (pyStr (charVal '2' * charVal '3'))) ∧
    pyStr (charVal '2' * charVal '3') = ['6'] :=
  ⟨C5_three_mul '2' '*' '3' (by decide) (by decide) (by decide), by decide⟩

/-- Counterexample to C3 as stated: `"2+3*4"` is well formed, has length 5
and `'+'` at index 1, and its remainder `"3*4"` evaluates to `"12"` (so the
claimed result would be the decimal string of `2 + 12 = 14`), yet `solve_term`
raises an `IndexError` instead of returning `"14"`. -/
theorem C3_counterexample :
    wellFormed ('2' :: '+' :: '3' :: '*' :: ['4']) = true ∧
    solveTermReturns ('3' :: '*' :: ['4']) (.ok ['1', '2']) ∧
    solveTermReturns ('2' :: '+' :: '3' :: '*' :: ['4']) (.error .indexError) ∧
    ¬ solveTermReturns ('2' :: '+' :: '3' :: '*' :: ['4']) (.ok (pyStr (2 + 12))) := by
  refine ⟨by decide, ⟨9, by decide⟩, ⟨9, by decide⟩, fun hok => ?_⟩
  have hidx : solveTermReturns ('2' :: '+' :: '3' :: '*' :: ['4'])
      (.error .indexError) := ⟨9, by decide⟩
  exact absurd (solveTermReturns_det hok hidx) (by decide)

/-- C3 (amended): for every well-formed term of odd length at least 5 with
`'+'` at index 1, provided the fully reduced remainder — the string returned
by `solve_term` on `term[2:]` — is a single character `d` (necessarily a
digit), `solve_term` returns the decimal string of the sum of the digit at
index 0 and the value of `d`. -/
theorem C3_plus_resolves_remainder (c0 c2 d : Char) (rest : List Char)
    (hwf : wellFormed (c0 :: '+' :: c2 :: rest) = true) (hrest : rest ≠ [])
    (hr : solveTermReturns (c2 :: rest) (.ok [d])) :
    solveTermReturns (c0 :: '+' :: c2 :: rest)
      (.ok (pyStr (charVal c0 + charVal d))) := by
  rcases rest with _ | ⟨x, rest2⟩
  · exact absurd rfl hrest
  · have hc0 : isDigitChar c0 = true := by
      simp [wellFormed] at hwf
      tauto
    have hc2 : isDigitChar c2 = true := by
      simp [wellFormed] at hwf
      tauto
    have hd : isDigitChar d = true := by
      obtain ⟨n, hn⟩ := hr
      obtain ⟨m, hm⟩ := solve_term_ok_shape n _ _ hn
      exact pyStr_digits m d (hm ▸ List.mem_singleton_self d)
    have hop : ('+' : Char) ≠ '*' := by decide
    have hne : (x :: rest2 : List Char) ≠ [] := by simp
    have hiff := returns_plus_step
      (headStep_long_plus hc0 hc2 hop hne) hr
      (.ok (pyStr (charVal c0 + charVal d)))
    refine hiff.mpr ?_
    have hlt : charVal c0 < 10 := charVal_lt10 hc0
    rw [pyStr_lt10 (charVal c0) hlt]
    have hdone := returns_of_done
      (headStep_three_plus (digitChar_isDigit (charVal c0) hlt) hd)
    rwa [charVal_digitChar (charVal c0) hlt] at hdone

/-- Witness for the amended C3 at the term `"2+3+4"`, whose remainder `"3+4"`
reduces to the single digit `'7'`; the result is the decimal string of
`2 + 7 = 9`. -/
theorem C3_plus_resolves_remainder_witness :
    wellFormed ('2' :: '+' :: '3' :: '+' :: ['4']) = true ∧
    solveTermReturns ('3' :: '+' :: ['4']) (.ok ['7']) ∧
    solveTermReturns ('2' :: '+' :: '3' :: '+' :: ['4'])
      (.ok (pyStr (charVal '2' + charVal '7'))) :=
  ⟨by decide, ⟨9, by decide⟩,
    C3_plus_resolves_remainder '2' '3' '7' ('+' :: ['4']) (by decide)
      (by decide) ⟨9, by decide⟩⟩

/-- C6: a pure multiplication chain `d1*d2*...*dk` (`k ≥ 2`, all operands
single decimal digits) in which every strict-prefix product stays below 10
evaluates to the decimal string of the full product, the evaluation passing
through each spliced intermediate chain; in particular `"2*3*4"` returns
`"24"`. -/
theorem C6_mul_chain_foldl (c : Char) (cs : List Char)
    (hc : isDigitChar c = true) (hcs : ∀ x ∈ cs, isDigitChar x = true)
    (hne : cs ≠ []) (hpre : prodsOk (charVal c) cs = true) :
    solveTermReturns (mulChain c cs) (.ok (pyStr (chainProd c cs))) := by
  induction cs generalizing c with
  | nil => exact absurd rfl hne
  | cons x cs2 ih =>
    have hx : isDigitChar x = true := hcs x (by simp)
    cases cs2 with
    | nil =>
      have hmul : ('*' : Char) ≠ '+' := by decide
      have hprod : chainProd c [x] = charVal c * charVal x := by
        simp [chainProd]
      rw [show mulChain c [x] = [c, '*', x] from rfl, hprod]
      exact returns_of_done (headStep_three_mul hc hx hmul)
    | cons y cs3 =>
      have hp10 : charVal c * charVal x < 10 := by
        simp [prodsOk] at hpre
        exact hpre.2.1
      have hpre2 : prodsOk (charVal c * charVal x) (y :: cs3) = true := by
        simp [prodsOk] at hpre ⊢
        exact ⟨hpre.2.1, hpre.2.2⟩
      have hne2 : ('*' :: mulChain y cs3 : List Char) ≠ [] := by simp
      have hstep := returns_mul_step
        (headStep_long_mul hc hx hne2 :
          headStep (c :: '*' :: x :: '*' :: mulChain y cs3) =
            .mulCase (pyStr (charVal c * charVal x) ++ '*' :: mulChain y cs3))
        (.ok (pyStr (chainProd c (x :: y :: cs3))))
      rw [show mulChain c (x :: y :: cs3) =
        c :: '*' :: x :: '*' :: mulChain y cs3 from rfl]
      refine hstep.mpr ?_
      have hsplice : pyStr (charVal c * charVal x) ++ '*' :: mulChain y cs3 =
          mulChain (Nat.digitChar (charVal c * charVal x)) (y :: cs3) := by
        rw [pyStr_lt10 _ hp10]
        rfl
      rw [hsplice]
      have hprodeq : chainProd (Nat.digitChar (charVal c * charVal x)) (y :: cs3) =
          chainProd c (x :: y :: cs3) := by
        simp [chainProd, charVal_digitChar (charVal c * charVal x) hp10]
      rw [← hprodeq]
      refine ih (Nat.digitChar (charVal c * charVal x))
        (digitChar_isDigit _ hp10) ?_ (by simp) ?_
      · intro z hz
        exact hcs z (List.mem_cons_of_mem x hz)
      · rw [charVal_digitChar _ hp10]
        exact hpre2

/-- Witness for C6 at the chain `"2*3*4"`, whose full product 24 prints as
`"24"`. -/
theorem C6_mul_chain_foldl_witness :
    mulChain '2' ['3', '4'] = ('2' :: '*' :: '3' :: '*' :: ['4']) ∧
    pyStr (chainProd '2' ['3', '4']) = ['2', '4'] ∧
    solveTermReturns (mulChain '2' ['3', '4'])
      (.ok (pyStr (chainProd '2' ['3', '4']))) :=
  ⟨by decide, by decide,
    C6_mul_chain_foldl '2' ['3', '4'] (by decide)
      (by decide) (by decide) (by decide)⟩

/-- Counterexample to C7 as stated: the length-1 term `"x"` raises, but with a
`ValueError` from `int("x")` (Python evaluates `int(term[0])` before indexing
`term[1]`), not with the index-out-of-range error the claim assigns to every
term shorter than 3. -/
theorem C7_counterexample :
    solveTermReturns ['x'] (.error (.valueError 'x')) ∧
    ¬ solveTermReturns ['x'] (.error .indexError) := by
  refine ⟨⟨1, by decide⟩, fun h => ?_⟩
  have hval : solveTermReturns ['x'] (.error (.valueError 'x')) :=
    ⟨1, by decide⟩
  exact absurd (solveTermReturns_det h hval) (by decide)

/-- C7 (amended): `solve_term` raises on every term of length less than 3 —
an index-out-of-range error when the term is empty or starts with a decimal
digit (any Unicode decimal digit `int()` accepts), and an integer-parse error
on the first character when `int()` rejects it — and raises an integer-parse
error on every term of length at least 3 whose character at index 0, or at
index 2 with a digit at index 0, is not a decimal digit. -/
theorem C7_short_or_nondigit_raises :
    (solveTermReturns [] (.error .indexError)) ∧
    (∀ c0 rest, rest.length ≤ 1 → isPyDigit c0 = true →
      solveTermReturns (c0 :: rest) (.error .indexError)) ∧
    (∀ c0 rest, isPyDigit c0 = false →
      solveTermReturns (c0 :: rest) (.error (.valueError c0))) ∧
    (∀ c0 c1 c2 rest, isPyDigit c0 = true → isPyDigit c2 = false →
      solveTermReturns (c0 :: c1 :: c2 :: rest) (.error (.valueError c2))) := by
  refine ⟨⟨1, by decide⟩, ?_, ?_, ?_⟩
  · intro c0 rest hlen hc0
    obtain ⟨v, hv⟩ := pyInt_ok_of_digit hc0
    match rest with
    | [] => exact returns_of_err (by simp [headStep, hv])
    | [c1] => exact returns_of_err (by simp [headStep, hv])
    | _ :: _ :: _ => simp at hlen
  · intro c0 rest hc0
    exact returns_of_err (by simp [headStep, pyInt_err_of_not_digit hc0])
  · intro c0 c1 c2 rest hc0 hc2
    obtain ⟨v, hv⟩ := pyInt_ok_of_digit hc0
    exact returns_of_err (by simp [headStep, hv, pyInt_err_of_not_digit hc2])

/-- Witness for the amended C7 at the length-1 terms `"5"` and `"٥"` (the
Arabic-Indic digit five; both give the index error), at `"+"` (parse error on
the first character) and at `"1+*"` (parse error at index 2). -/
theorem C7_short_or_nondigit_raises_witness :
    solveTermReturns ['5'] (.error .indexError) ∧
    solveTermReturns ['٥'] (.error .indexError) ∧
    solveTermReturns ['+'] (.error (.valueError '+')) ∧
    solveTermReturns ['1', '+', '*'] (.error (.valueError '*')) :=
  ⟨C7_short_or_nondigit_raises.2.1 '5' [] (by decide) (by decide),
    C7_short_or_nondigit_raises.2.1 '٥' [] (by decide) (by decide),
    C7_short_or_nondigit_raises.2.2.1 '+' [] (by decide),
    C7_short_or_nondigit_raises.2.2.2 '1' '+' '*' [] (by decide) (by decide)⟩

/-- Counterexample to C8 as stated: when the `'term'` key is absent from the
JSON body, line 14 raises `KeyError('term')` before the `if not term:` guard
is reached, so the view produces no response of its own — in particular not
the 400 `"No term provided"` response the claim asserts for a missing term
(the framework's default handling of the uncaught exception yields its
generic 500 page instead). -/
theorem C8_counterexample :
    solveAPI 1 .absent = some (.error (.keyError "term")) ∧
    solveAPI 1 .absent ≠ some (.ok (.body "No term provided" 400)) :=
  ⟨rfl, by decide⟩

/-- C8 (amended): the `/solve` view returns 400 with body `"No term
provided"` when the term field is JSON null or the empty string; when the
`'term'` key is absent it raises `KeyError('term')` instead of returning a
response (the endpoint's reply is then the framework's uncaught-exception
handling, not the 400 response); when `solve_term` raises `e` it returns 500
with body `str(e)`; and when `solve_term` returns a string it returns 200
with that string as body. -/
theorem C8_transport_statuses :
    (∀ fuel, solveAPI fuel .absent = some (.error (.keyError "term"))) ∧
    (∀ fuel, solveAPI fuel .null = some (.ok (.body "No term provided" 400))) ∧
    (∀ fuel, solveAPI fuel (.str "") = some (.ok (.body "No term provided" 400))) ∧
    (∀ fuel t e, t ≠ "" → solve_term fuel t.data = some (.error e) →
      solveAPI fuel (.str t) = some (.ok (.errText e 500))) ∧
    (∀ fuel t r, t ≠ "" → solve_term fuel t.data = some (.ok r) →
      solveAPI fuel (.str t) = some (.ok (.body (String.mk r) 200))) := by
  refine ⟨fun fuel => rfl, fun fuel => rfl, fun fuel => rfl, ?_, ?_⟩
  · intro fuel t e ht h
    simp [solveAPI, ht, h]
  · intro fuel t r ht h
    simp [solveAPI, ht, h]

/-- Witness for the amended C8 at the erroring request `"+"` and the
succeeding request `"3+4"`. -/
theorem C8_transport_statuses_witness :
    solveAPI 1 (.str "+") = some (.ok (.errText (.valueError '+') 500)) ∧
    solveAPI 9 (.str "3+4") = some (.ok (.body (String.mk ['7']) 200)) ∧
    String.mk ['7'] = "7" :=
  ⟨C8_transport_statuses.2.2.2.1 1 "+" (.valueError '+') (by decide) (by decide),
    C8_transport_statuses.2.2.2.2 9 "3+4" ['7'] (by decide) (by decide),
    rfl⟩

/-- C9: every value `solve_term` returns normally is the decimal
representation of a nonnegative integer, made of digit characters only (no
sign, whitespace or other non-digit characters). -/
theorem C9_result_is_decimal (t v : List Char)
    (h : solveTermReturns t (.ok v)) :
    (∃ m : Nat, v = pyStr m) ∧ (∀ c ∈ v, isDigitChar c = true) := by
  obtain ⟨n, hn⟩ := h
  obtain ⟨m, rfl⟩ := solve_term_ok_shape n t v hn
  exact ⟨⟨m, rfl⟩, pyStr_digits m⟩

/-- Witness for C9 at the call on `"3+4"`, which returns `"7"`. -/
theorem C9_result_is_decimal_witness :
    (∃ m : Nat, (['7'] : List Char) = pyStr m) ∧
    (∀ c ∈ (['7'] : List Char), isDigitChar c = true) :=
  C9_result_is_decimal ['3', '+', '4'] ['7'] ⟨9, by decide⟩

/-- C10: there are well-formed terms on which `solve_term` raises:
`"2+3*4"` raises an index-out-of-range error (the reconstruction `"2+12"`
recursively evaluates `"12"`, which has no index 2), and `"9*9*9"` raises an
integer-parse error (the spliced string `"81*9"` has `'*'` at index 2). -/
theorem C10_wellformed_raises :
    wellFormed ('2' :: '+' :: '3' :: '*' :: ['4']) = true ∧
    solveTermReturns ('2' :: '+' :: '3' :: '*' :: ['4']) (.error .indexError) ∧
    solveTermReturns ('1' :: ['2']) (.error .indexError) ∧
    wellFormed ('9' :: '*' :: '9' :: '*' :: ['9']) = true ∧
    solveTermReturns ('9' :: '*' :: '9' :: '*' :: ['9'])
      (.error (.valueError '*')) ∧
    solveTermReturns ('8' :: '1' :: '*' :: ['9']) (.error (.valueError '*')) :=
  ⟨by decide, ⟨9, by decide⟩, ⟨9, by decide⟩, by decide, ⟨9, by decide⟩,
    ⟨9, by decide⟩⟩
